import Mathlib

/-!
Shallow embedding of the revenue forecasting core of `folio`
(`src/revenue_model/forecast_models.py` and
`src/revenue_model/scenario_analysis.py`).

Floating-point values are idealised as exact rationals (`ℚ`) where the
source only adds, subtracts, multiplies and divides, and as reals (`ℝ`)
where the source takes a fractional power (the CAGR computation).
Python exceptions are modelled with `Except PyError`.
-/

/-- Python runtime errors that the forecasting code can raise. -/
inductive PyError
  | unboundLocal
  | keyError
  | indexError
  deriving DecidableEq, Repr

/-! ## Forecast storage (`RevenueForecaster.forecasts`)

The `forecasts` dict of `RevenueForecaster` maps a model name to its
forecast column.  We model it as an association list from names to
forecast value sequences. -/

/-- Look a model's forecast up in the `forecasts` mapping
(`model_name in self.forecasts` / `self.forecasts[model_name]`). -/
def lookupForecast (fs : List (String × List ℚ)) (name : String) :
    Option (List ℚ) :=
  (fs.find? (fun p => p.1 == name)).map Prod.snd

/-- `np.mean(rows, axis=0)`: the element-wise arithmetic mean of a list of
equal-length rows.  The output length is the first row's length, as with
a NumPy array built from the rows. -/
def elementwiseMean (vals : List (List ℚ)) : List ℚ :=
  match vals with
  | [] => []
  | v :: _ =>
      (List.range v.length).map
        (fun j => (vals.map (fun row => row.getD j 0)).sum / vals.length)

/-- Default constituent subset of `ensemble_forecast`
(`models_to_use = ['Polynomial_2', 'Exponential Smoothing', 'Gradient Boosting']`). -/
def defaultEnsembleModels : List String :=
  ["Polynomial_2", "Exponential Smoothing", "Gradient Boosting"]

/-- `RevenueForecaster.ensemble_forecast`: collect the forecasts of the
requested constituents that are present in `forecasts` (absent names are
silently skipped by the `if model_name in self.forecasts` guard) and
average them element-wise with `np.mean(..., axis=0)`. -/
def ensembleForecast (fs : List (String × List ℚ)) (names : List String) :
    List ℚ :=
  elementwiseMean (names.filterMap (lookupForecast fs))

/-- `RevenueForecaster.run_all_models`: run the catalogue in order.  Each
step is abstracted by its outcome (the forecast it records, or the Python
exception its fit raises).  The method body has no `try`/`except`, so an
exception propagates: successes recorded so far stay in `forecasts`, the
remaining models never run.  Returns the recorded forecasts together with
the escaping exception, if any. -/
def runSteps :
    List (String × Except PyError (List ℚ)) → List (String × List ℚ) →
      List (String × List ℚ) × Option PyError
  | [], acc => (acc, none)
  | (n, Except.ok f) :: rest, acc => runSteps rest (acc ++ [(n, f)])
  | (_, Except.error e) :: _, acc => (acc, some e)

/-- `run_all_models` starting from an empty `forecasts` dict. -/
def runAllModels (steps : List (String × Except PyError (List ℚ))) :
    List (String × List ℚ) × Option PyError :=
  runSteps steps []

/-- `RevenueForecaster.get_all_forecasts`: builds the combined table from
`list(self.forecasts.keys())[0]`; indexing `[0]` into the key list of an
empty dict raises `IndexError`.  On a non-empty mapping it returns one
named column per stored forecast (the `Year` column is taken from the
first entry and carries no model data). -/
def getAllForecasts (fs : List (String × List ℚ)) :
    Except PyError (List (String × List ℚ)) :=
  match fs with
  | [] => Except.error PyError.indexError
  | f :: rest => Except.ok (f :: rest)

/-- One `MetricsRecord` (`calculate_metrics` stores MAE, RMSE, MAPE, R²). -/
structure MetricsRecord where
  mae : ℚ
  rmse : ℚ
  mape : ℚ
  r2 : ℚ
  deriving DecidableEq, Repr

/-- `RevenueForecaster.get_metrics_summary`: an empty metrics dict yields
an empty table (`pd.DataFrame()`), otherwise the records sorted ascending
by MAPE. -/
def getMetricsSummary (ms : List (String × MetricsRecord)) :
    Except PyError (List (String × MetricsRecord)) :=
  if ms.isEmpty then Except.ok []
  else Except.ok (List.insertionSort (fun a b => a.2.mape ≤ b.2.mape) ms)

/-! ## Scenario analysis (`ScenarioAnalyzer`) -/

/-- `Series.pct_change().dropna()`: the list of year-over-year relative
changes `v[i] / v[i-1] - 1`. -/
def pctChanges (vals : List ℚ) : List ℚ :=
  (vals.zip vals.tail).map (fun p => p.2 / p.1 - 1)

/-- `Series.mean()` on an exact embedding: sum divided by length. -/
def listMean (xs : List ℚ) : ℚ :=
  xs.sum / xs.length

/-- `calculate_volatility`'s `mean_growth`: the mean of all year-over-year
percentage changes of the revenue series. -/
def meanGrowth (vals : List ℚ) : ℚ :=
  listMean (pctChanges vals)

/-- `generate_scenarios`' `recent_growth`:
`df['Revenue'].iloc[-3:].pct_change().mean()`, the mean of the
percentage changes over the final 3 observations (2 deltas). -/
def recentGrowth (vals : List ℚ) : ℚ :=
  listMean (pctChanges (vals.drop (vals.length - 3)))

/-- The compounding loop shared by `generate_scenarios`
(`current_revenue = current_revenue * (1 + growth_rate)` then append,
repeated `years_ahead` times). -/
def compoundPath (start g : ℚ) : ℕ → List ℚ
  | 0 => []
  | h + 1 => (start * (1 + g)) :: compoundPath (start * (1 + g)) g h

/-- `ScenarioAnalyzer.generate_scenarios`: the three scenarios in
definition order with their growth rates
(Bull = recent × 0.85, Base = mean × 1.2, Bear = mean × 0.6) and
compounded forecast paths. -/
def generateScenarios (vals : List ℚ) (H : ℕ) :
    List (String × ℚ × List ℚ) :=
  let last := vals.getLastD 0
  let m := meanGrowth vals
  let r := recentGrowth vals
  [("Bull", r * (17 / 20), compoundPath last (r * (17 / 20)) H),
   ("Base", m * (6 / 5), compoundPath last (m * (6 / 5)) H),
   ("Bear", m * (3 / 5), compoundPath last (m * (3 / 5)) H)]

/-- The growth rate recorded for a named scenario in the result of
`generate_scenarios` (0 if the name is absent). -/
def scenarioRate (scs : List (String × ℚ × List ℚ)) (name : String) : ℚ :=
  match scs.find? (fun s => s.1 == name) with
  | some s => s.2.1
  | none => 0

/-! ## Monte Carlo simulation (`ScenarioAnalyzer.monte_carlo_simulation`)

The draws of `np.random.normal(mean_growth, volatility)` are abstracted
as an input `draws : ℕ → ℕ → ℚ` giving the growth rate sampled for
`(trial, period)`; seeding the generator fixes this function. -/

/-- One simulation row: starting from `current`, repeatedly multiply by
`1 + g year` and record each intermediate value. -/
def mcRow (g : ℕ → ℚ) : ℚ → ℕ → ℕ → List ℚ
  | _, _, 0 => []
  | current, year, k + 1 =>
      (current * (1 + g year)) :: mcRow g (current * (1 + g year)) (year + 1) k

/-- The `n_simulations × years_ahead` matrix of simulated revenues. -/
def mcSimulations (last : ℚ) (draws : ℕ → ℕ → ℚ) (S H : ℕ) :
    List (List ℚ) :=
  (List.range S).map (fun sim => mcRow (draws sim) last 0 H)

/-- The column of trial outcomes for one future year
(`simulations[:, j]`). -/
def mcColumn (sims : List (List ℚ)) (j : ℕ) : List ℚ :=
  sims.map (fun r => r.getD j 0)

/-- Linear interpolation at virtual index `h` into a (sorted) list, as in
NumPy's default percentile method: value
`s[⌊h⌋] + (h − ⌊h⌋) × (s[⌊h⌋+1] − s[⌊h⌋])`, with the indices clamped to
the list. -/
def interpAt (s : List ℚ) (h : ℚ) : ℚ :=
  let i := min (Int.toNat ⌊h⌋) (s.length - 1)
  let j := min (i + 1) (s.length - 1)
  s.getD i 0 + (h - ((⌊h⌋ : ℤ) : ℚ)) * (s.getD j 0 - s.getD i 0)

/-- `np.percentile(xs, q)` with linear interpolation: sort, then
interpolate at virtual index `q × (n − 1) / 100`.  `np.median` coincides
with the `q = 50` case. -/
def percentile (q : ℚ) (xs : List ℚ) : ℚ :=
  let s := List.insertionSort (· ≤ ·) xs
  interpAt s (q * ((s.length : ℚ) - 1) / 100)

/-- The bundle returned by `monte_carlo_simulation` (years and the raw
matrix omitted; the bands and the mean are the modelled outputs). -/
structure MCResult where
  p10 : List ℚ
  p25 : List ℚ
  median : List ℚ
  p75 : List ℚ
  p90 : List ℚ
  mean : List ℚ
  deriving DecidableEq, Repr

/-- `ScenarioAnalyzer.monte_carlo_simulation`: build the simulation
matrix from the last observed revenue and the sampled growth draws, then
take per-year percentiles and means across the trials. -/
def monteCarloSimulation (vals : List ℚ) (draws : ℕ → ℕ → ℚ) (S H : ℕ) :
    MCResult :=
  let sims := mcSimulations (vals.getLastD 0) draws S H
  { p10 := (List.range H).map (fun j => percentile 10 (mcColumn sims j))
    p25 := (List.range H).map (fun j => percentile 25 (mcColumn sims j))
    median := (List.range H).map (fun j => percentile 50 (mcColumn sims j))
    p75 := (List.range H).map (fun j => percentile 75 (mcColumn sims j))
    p90 := (List.range H).map (fun j => percentile 90 (mcColumn sims j))
    mean := (List.range H).map (fun j => (mcColumn sims j).sum / (S : ℚ)) }

/-! ## Growth-rate forecasts (`RevenueForecaster.growth_rate_forecast`)

The CAGR branch takes a fractional power, so this part of the embedding
lives in `ℝ`. -/

/-- The CAGR of the series:
`(revenues[-1] / revenues[0]) ** (1 / n_years) - 1` with
`n_years = len(revenues) - 1`. -/
noncomputable def cagrRate (revenues : List ℝ) : ℝ :=
  (revenues.getLastD 0 / revenues.headD 0) ^
      ((1 : ℝ) / ((revenues.length : ℝ) - 1)) - 1

/-- The `recent` growth rate: the mean of the year-over-year relative
changes over the final 3 observations. -/
noncomputable def recentRate (revenues : List ℝ) : ℝ :=
  let t := revenues.drop (revenues.length - 3)
  ((t.zip t.tail).map (fun p => p.2 / p.1 - 1)).sum /
    (((t.zip t.tail).length : ℝ))

/-- The forecast list built by `growth_rate_forecast`'s loop:
`last_revenue * (1 + growth_rate) ** i` for `i = 1..years_ahead`. -/
noncomputable def growthForecastList (revenues : List ℝ) (H : ℕ) (g : ℝ) :
    List ℝ :=
  (List.range H).map (fun i => revenues.getLastD 0 * (1 + g) ^ (i + 1))

/-- `RevenueForecaster.growth_rate_forecast`: dispatch on the `method`
string.  For any method other than `'cagr'` and `'recent'` the local
`growth_rate` is never assigned and its first use raises
`UnboundLocalError`. -/
noncomputable def growthRateForecast (revenues : List ℝ) (H : ℕ)
    (method : String) : Except PyError (List ℝ) :=
  if method = "cagr" then
    Except.ok (growthForecastList revenues H (cagrRate revenues))
  else if method = "recent" then
    Except.ok (growthForecastList revenues H (recentRate revenues))
  else
    Except.error PyError.unboundLocal

/-! ## Helper lemmas -/

/-- Element `j` of a map over `List.range`. -/
theorem getD_map_range {α : Type} (f : ℕ → α) (d : α) (H j : ℕ) (hj : j < H) :
    ((List.range H).map f).getD j d = f j := by
  have hlen : j < ((List.range H).map f).length := by simpa using hj
  rw [List.getD_eq_getElem _ _ hlen, List.getElem_map, List.getElem_range]

/-- A `filterMap` whose function never returns `none` on the list is a
`map`. -/
theorem filterMap_eq_map_getD {α β : Type} (f : α → Option β) (d : β)
    (l : List α) (h : ∀ a ∈ l, (f a).isSome) :
    l.filterMap f = l.map (fun a => (f a).getD d) := by
  induction l with
  | nil => rfl
  | cons a l ih =>
      obtain ⟨b, hb⟩ :=
        Option.isSome_iff_exists.mp (h a (List.mem_cons_self a l))
      rw [List.filterMap_cons, List.map_cons, hb]
      exact congrArg _ (ih (fun x hx => h x (List.mem_cons_of_mem a hx)))

/-! ## C1: ensemble forecast is the exact element-wise mean -/

/-- Claim C1: for every forecasts mapping and every horizon `H ≥ 1`, if every
constituent named in the ensemble subset has already been run (is present
with a length-`H` forecast), then the ensemble forecast value at each
future year equals the exact arithmetic mean, over the constituents, of
their forecast values at that year.  The default subset is
`defaultEnsembleModels`. -/
theorem ensemble_is_mean (fs : List (String × List ℚ)) (names : List String)
    (H : ℕ) (hH : 1 ≤ H) (hne : names ≠ [])
    (hall : ∀ n ∈ names, ∃ v, lookupForecast fs n = some v ∧ v.length = H) :
    (ensembleForecast fs names).length = H ∧
    ∀ j, j < H → (ensembleForecast fs names).getD j 0 =
      (names.map (fun n => ((lookupForecast fs n).getD []).getD j 0)).sum /
        (names.length : ℚ) := by
  have hsome : ∀ n ∈ names, (lookupForecast fs n).isSome := by
    intro n hn; obtain ⟨v, hv, _⟩ := hall n hn; simp [hv]
  have hfm : names.filterMap (lookupForecast fs) =
      names.map (fun n => (lookupForecast fs n).getD []) :=
    filterMap_eq_map_getD _ _ _ hsome
  obtain ⟨n0, rest, rfl⟩ : ∃ n0 rest, names = n0 :: rest := by
    cases names with
    | nil => exact absurd rfl hne
    | cons a l => exact ⟨a, l, rfl⟩
  have hlen0 : ((lookupForecast fs n0).getD []).length = H := by
    obtain ⟨v, hv, hvl⟩ := hall n0 (List.mem_cons_self _ _)
    simp [hv, hvl]
  rw [ensembleForecast, hfm]
  constructor
  · simp [elementwiseMean, hlen0]
  · intro j hj
    have hj' : j < ((lookupForecast fs n0).getD []).length := by
      rw [hlen0]; exact hj
    simp only [List.map_cons, elementwiseMean]
    rw [getD_map_range _ _ _ _ hj']
    simp [List.map_map, Function.comp_def]

/-- Witness for C1: the default three-constituent subset on a concrete
forecasts mapping; the mean at each of the two future years. -/
theorem ensemble_is_mean_witness :
    (ensembleForecast
        [("Polynomial_2", [2, 4]), ("Exponential Smoothing", [4, 6]),
         ("Gradient Boosting", [6, 8])] defaultEnsembleModels).length = 2 ∧
    ∀ j, j < 2 → (ensembleForecast
        [("Polynomial_2", [2, 4]), ("Exponential Smoothing", [4, 6]),
         ("Gradient Boosting", [6, 8])] defaultEnsembleModels).getD j 0 =
      (defaultEnsembleModels.map (fun n =>
        ((lookupForecast
            [("Polynomial_2", [2, 4]), ("Exponential Smoothing", [4, 6]),
             ("Gradient Boosting", [6, 8])] n).getD []).getD j 0)).sum /
        ((defaultEnsembleModels.length : ℚ)) :=
  ensemble_is_mean _ defaultEnsembleModels 2 (by decide) (by decide)
    (by decide)

/-! ## C2: the CAGR growth-rate forecast -/

/-- Claim C2: for every revenue series with `n ≥ 2` observations, all positive,
and every horizon `H ≥ 1`, the CAGR forecast uses
`growthRate = (lastValue / firstValue) ^ (1 / (n - 1)) - 1` and returns
`forecast[i] = lastValue * (1 + growthRate) ^ i` for `i = 1..H`; in
particular the final value equals `lastValue * (1 + growthRate) ^ H`. -/
theorem cagr_forecast_formula (revenues : List ℝ) (H : ℕ)
    (hn : 2 ≤ revenues.length) (hpos : ∀ x ∈ revenues, 0 < x)
    (hH : 1 ≤ H) :
    ∃ fc, growthRateForecast revenues H "cagr" = Except.ok fc ∧
      fc.length = H ∧
      (∀ i, i < H → fc.getD i 0 =
        revenues.getLastD 0 *
          (1 + ((revenues.getLastD 0 / revenues.headD 0) ^
              ((1 : ℝ) / ((revenues.length : ℝ) - 1)) - 1)) ^ (i + 1)) ∧
      fc.getD (H - 1) 0 =
        revenues.getLastD 0 *
          (1 + ((revenues.getLastD 0 / revenues.headD 0) ^
              ((1 : ℝ) / ((revenues.length : ℝ) - 1)) - 1)) ^ H := by
  refine ⟨growthForecastList revenues H (cagrRate revenues), ?_, ?_, ?_, ?_⟩
  · simp [growthRateForecast]
  · simp [growthForecastList]
  · intro i hi
    rw [growthForecastList, getD_map_range _ _ _ _ hi, cagrRate]
  · have h1 : H - 1 < H := by omega
    rw [growthForecastList, getD_map_range _ _ _ _ h1, cagrRate]
    have hH1 : H - 1 + 1 = H := by omega
    rw [hH1]

/-- Witness for C2: the two-point series `[1, 4]` with horizon 1. -/
theorem cagr_forecast_formula_witness :
    ∃ fc, growthRateForecast [1, 4] 1 "cagr" = Except.ok fc ∧
      fc.length = 1 ∧
      (∀ i, i < 1 → fc.getD i 0 =
        ([1, 4] : List ℝ).getLastD 0 *
          (1 + ((([1, 4] : List ℝ).getLastD 0 / ([1, 4] : List ℝ).headD 0) ^
              ((1 : ℝ) / ((([1, 4] : List ℝ).length : ℝ) - 1)) - 1)) ^
            (i + 1)) ∧
      fc.getD (1 - 1) 0 =
        ([1, 4] : List ℝ).getLastD 0 *
          (1 + ((([1, 4] : List ℝ).getLastD 0 / ([1, 4] : List ℝ).headD 0) ^
              ((1 : ℝ) / ((([1, 4] : List ℝ).length : ℝ) - 1)) - 1)) ^ 1 :=
  cagr_forecast_formula [1, 4] 1 (by norm_num)
    (by
      intro x hx
      simp only [List.mem_cons, List.not_mem_nil, or_false] at hx
      rcases hx with rfl | rfl <;> norm_num)
    (le_refl 1)

/-! ## C5: scenario generation -/

/-- Length of the list of year-over-year changes. -/
theorem pctChanges_length (vals : List ℚ) :
    (pctChanges vals).length = vals.length - 1 := by
  simp [pctChanges]

/-- Each entry of the compounding loop's output:
`start * (1 + g) ^ (i + 1)`. -/
theorem compoundPath_getD (start g : ℚ) (H i : ℕ) (hi : i < H) :
    (compoundPath start g H).getD i 0 = start * (1 + g) ^ (i + 1) := by
  induction H generalizing start i with
  | zero => omega
  | succ h ih =>
      cases i with
      | zero => simp [compoundPath, pow_one]
      | succ i =>
          have hi' : i < h := by omega
          simp only [compoundPath, List.getD_cons_succ]
          rw [ih _ _ hi']
          ring

/-- Claim C5: for every input series with `n ≥ 4` observations, all
positive, and every horizon `H`, scenario generation computes
`meanGrowth` as the mean of all year-over-year percentage changes,
`recentGrowth` as the mean percentage change over the final 3
observations, and produces exactly the three scenarios Bull, Base, Bear
with growth rates `recentGrowth × 0.85`, `meanGrowth × 1.2`,
`meanGrowth × 0.6`, each forecasting point `i` (for `i = 1..H`) as
`lastValue × (1 + rate) ^ i`. -/
theorem scenarios_spec (vals : List ℚ) (H : ℕ) (hn : 4 ≤ vals.length)
    (hpos : ∀ x ∈ vals, 0 < x) :
    meanGrowth vals = (pctChanges vals).sum / ((vals.length : ℚ) - 1) ∧
    recentGrowth vals =
      (pctChanges (vals.drop (vals.length - 3))).sum / 2 ∧
    ∃ pBull pBase pBear,
      generateScenarios vals H =
        [("Bull", recentGrowth vals * (17 / 20), pBull),
         ("Base", meanGrowth vals * (6 / 5), pBase),
         ("Bear", meanGrowth vals * (3 / 5), pBear)] ∧
      (∀ i, i < H → pBull.getD i 0 =
        vals.getLastD 0 * (1 + recentGrowth vals * (17 / 20)) ^ (i + 1)) ∧
      (∀ i, i < H → pBase.getD i 0 =
        vals.getLastD 0 * (1 + meanGrowth vals * (6 / 5)) ^ (i + 1)) ∧
      (∀ i, i < H → pBear.getD i 0 =
        vals.getLastD 0 * (1 + meanGrowth vals * (3 / 5)) ^ (i + 1)) := by
  refine ⟨?_, ?_, _, _, _, rfl, ?_, ?_, ?_⟩
  · rw [meanGrowth, listMean, pctChanges_length,
      Nat.cast_sub (by omega : 1 ≤ vals.length), Nat.cast_one]
  · have hd : (vals.drop (vals.length - 3)).length = 3 := by
      rw [List.length_drop]; omega
    rw [recentGrowth, listMean, pctChanges_length, hd]
    norm_num
  · intro i hi; exact compoundPath_getD _ _ _ _ hi
  · intro i hi; exact compoundPath_getD _ _ _ _ hi
  · intro i hi; exact compoundPath_getD _ _ _ _ hi

/-- Witness for C5: the five-point series `[1, 2, 3, 4, 5]`, horizon 2. -/
theorem scenarios_spec_witness :
    meanGrowth [1, 2, 3, 4, 5] =
      (pctChanges [1, 2, 3, 4, 5]).sum /
        ((([1, 2, 3, 4, 5] : List ℚ).length : ℚ) - 1) ∧
    recentGrowth [1, 2, 3, 4, 5] =
      (pctChanges (([1, 2, 3, 4, 5] : List ℚ).drop
        (([1, 2, 3, 4, 5] : List ℚ).length - 3))).sum / 2 ∧
    ∃ pBull pBase pBear,
      generateScenarios [1, 2, 3, 4, 5] 2 =
        [("Bull", recentGrowth [1, 2, 3, 4, 5] * (17 / 20), pBull),
         ("Base", meanGrowth [1, 2, 3, 4, 5] * (6 / 5), pBase),
         ("Bear", meanGrowth [1, 2, 3, 4, 5] * (3 / 5), pBear)] ∧
      (∀ i, i < 2 → pBull.getD i 0 =
        ([1, 2, 3, 4, 5] : List ℚ).getLastD 0 *
          (1 + recentGrowth [1, 2, 3, 4, 5] * (17 / 20)) ^ (i + 1)) ∧
      (∀ i, i < 2 → pBase.getD i 0 =
        ([1, 2, 3, 4, 5] : List ℚ).getLastD 0 *
          (1 + meanGrowth [1, 2, 3, 4, 5] * (6 / 5)) ^ (i + 1)) ∧
      (∀ i, i < 2 → pBear.getD i 0 =
        ([1, 2, 3, 4, 5] : List ℚ).getLastD 0 *
          (1 + meanGrowth [1, 2, 3, 4, 5] * (3 / 5)) ^ (i + 1)) :=
  scenarios_spec [1, 2, 3, 4, 5] 2 (by norm_num)
    (by
      intro x hx
      simp only [List.mem_cons, List.not_mem_nil, or_false] at hx
      rcases hx with rfl | rfl | rfl | rfl | rfl <;> norm_num)

/-! ## C6: Bull versus Base ordering -/

/-- Counterexample to claim C6 as stated: on the series
`[1, 1.4, 2.1, 3.15]` the recent growth (1/2) strictly exceeds the mean
growth (7/15), yet the Bull rate (0.425) does not exceed the Base rate
(0.56). -/
theorem bull_base_cex :
    recentGrowth [1, 7/5, 21/10, 63/20] >
      meanGrowth [1, 7/5, 21/10, 63/20] ∧
    ¬ (scenarioRate (generateScenarios [1, 7/5, 21/10, 63/20] 5) "Bull" >
       scenarioRate (generateScenarios [1, 7/5, 21/10, 63/20] 5) "Base") := by
  have hB : scenarioRate (generateScenarios [1, 7/5, 21/10, 63/20] 5) "Bull"
      = recentGrowth [1, 7/5, 21/10, 63/20] * (17 / 20) := rfl
  have hb : scenarioRate (generateScenarios [1, 7/5, 21/10, 63/20] 5) "Base"
      = meanGrowth [1, 7/5, 21/10, 63/20] * (6 / 5) := rfl
  have hm : meanGrowth [1, 7/5, 21/10, 63/20] = 7 / 15 := by
    norm_num [meanGrowth, listMean, pctChanges]
  have hr : recentGrowth [1, 7/5, 21/10, 63/20] = 1 / 2 := by
    norm_num [recentGrowth, listMean, pctChanges]
  constructor
  · rw [hm, hr]; norm_num
  · rw [hB, hb, hm, hr]; norm_num

/-- Claim C6 (amended): the Bull scenario's growth rate strictly exceeds
the Base scenario's growth rate whenever
`recentGrowth > (24/17) × meanGrowth` (equivalently
`recentGrowth × 0.85 > meanGrowth × 1.2`); the condition
`recentGrowth > meanGrowth` alone does not suffice. -/
theorem bull_base_amended (vals : List ℚ) (H : ℕ)
    (h : (24 / 17) * meanGrowth vals < recentGrowth vals) :
    scenarioRate (generateScenarios vals H) "Base" <
      scenarioRate (generateScenarios vals H) "Bull" := by
  have hB : scenarioRate (generateScenarios vals H) "Bull" =
      recentGrowth vals * (17 / 20) := rfl
  have hb : scenarioRate (generateScenarios vals H) "Base" =
      meanGrowth vals * (6 / 5) := rfl
  rw [hB, hb]
  linarith

/-- Witness for C6 (amended): the series `[1, 1, 2, 4]` has mean growth
2/3 and recent growth 1, and `1 > (24/17) × (2/3)`. -/
theorem bull_base_amended_witness :
    (24 / 17) * meanGrowth [1, 1, 2, 4] < recentGrowth [1, 1, 2, 4] ∧
    scenarioRate (generateScenarios [1, 1, 2, 4] 5) "Base" <
      scenarioRate (generateScenarios [1, 1, 2, 4] 5) "Bull" := by
  have h : (24 / 17) * meanGrowth [1, 1, 2, 4] < recentGrowth [1, 1, 2, 4] := by
    have hm : meanGrowth [1, 1, 2, 4] = 2 / 3 := by
      norm_num [meanGrowth, listMean, pctChanges]
    have hr : recentGrowth [1, 1, 2, 4] = 1 := by
      norm_num [recentGrowth, listMean, pctChanges]
    rw [hm, hr]; norm_num
  exact ⟨h, bull_base_amended [1, 1, 2, 4] 5 h⟩

/-! ## C7: unknown method / constituent names -/

/-- Filtering a list down to the elements on which an option-valued
function succeeds does not change its `filterMap`. -/
theorem filterMap_filter_isSome {α β : Type} (f : α → Option β)
    (l : List α) :
    (l.filter (fun a => (f a).isSome)).filterMap f = l.filterMap f := by
  induction l with
  | nil => rfl
  | cons a l ih =>
      by_cases h : (f a).isSome
      · obtain ⟨b, hb⟩ := Option.isSome_iff_exists.mp h
        simp [List.filter_cons, h, List.filterMap_cons, hb, ih]
      · have hn : f a = none := Option.not_isSome_iff_eq_none.mp h
        simp [List.filter_cons, h, List.filterMap_cons, hn, ih]

/-- Counterexample to claim C7 as stated: no `InvalidArgumentError`
exists in the code.  An unknown growth-rate method name raises Python's
`UnboundLocalError` (the local `growth_rate` is never assigned), and an
unknown ensemble constituent name raises nothing at all: it is silently
skipped, and here the ensemble of `Polynomial_2` ([2]) and
`Gradient Boosting` ([6]) with the unknown name `Mystery` succeeds with
the forecast `[4]`. -/
theorem unknown_name_cex :
    growthRateForecast [1, 4] 1 "hold" = Except.error PyError.unboundLocal ∧
    ensembleForecast [("Polynomial_2", [2]), ("Gradient Boosting", [6])]
        ["Polynomial_2", "Gradient Boosting", "Mystery"] = [4] := by
  constructor
  · rw [growthRateForecast, if_neg (by decide), if_neg (by decide)]
  · have h1 : ensembleForecast
        [("Polynomial_2", [2]), ("Gradient Boosting", [6])]
        ["Polynomial_2", "Gradient Boosting", "Mystery"] =
        elementwiseMean [[2], [6]] := rfl
    rw [h1]
    have h2 : elementwiseMean [[2], [6]] =
        [((2 : ℚ) + (6 + 0)) / 2] := rfl
    rw [h2]
    norm_num

/-- Claim C7 (amended): calling the growth-rate forecast with a method
name other than `'cagr'` and `'recent'` raises an error (Python's
`UnboundLocalError`, not a dedicated `InvalidArgumentError`) and produces
no forecast; calling the ensemble with unknown constituent names raises
no error at all: the unknown names are silently skipped, the ensemble
being unchanged when the name list is filtered down to the names present
in the forecasts mapping. -/
theorem unknown_name_amended (revenues : List ℝ) (H : ℕ) (m : String)
    (h1 : m ≠ "cagr") (h2 : m ≠ "recent")
    (fs : List (String × List ℚ)) (names : List String) :
    growthRateForecast revenues H m = Except.error PyError.unboundLocal ∧
    ensembleForecast fs
        (names.filter (fun n => (lookupForecast fs n).isSome)) =
      ensembleForecast fs names := by
  constructor
  · rw [growthRateForecast, if_neg h1, if_neg h2]
  · rw [ensembleForecast, ensembleForecast, filterMap_filter_isSome]

/-- Witness for C7 (amended): the unknown method name `'hold'` and a
name list containing the unknown constituent `Mystery`. -/
theorem unknown_name_amended_witness :
    ("hold" : String) ≠ "cagr" ∧ ("hold" : String) ≠ "recent" ∧
    (growthRateForecast [1, 4] 1 "hold" =
        Except.error PyError.unboundLocal ∧
      ensembleForecast [("Polynomial_2", [2]), ("Gradient Boosting", [6])]
          ((["Polynomial_2", "Gradient Boosting", "Mystery"]).filter
            (fun n => (lookupForecast
              [("Polynomial_2", [2]), ("Gradient Boosting", [6])]
                n).isSome)) =
        ensembleForecast [("Polynomial_2", [2]), ("Gradient Boosting", [6])]
          ["Polynomial_2", "Gradient Boosting", "Mystery"]) :=
  ⟨by decide, by decide,
    unknown_name_amended [1, 4] 1 "hold" (by decide) (by decide)
      [("Polynomial_2", [2]), ("Gradient Boosting", [6])]
      ["Polynomial_2", "Gradient Boosting", "Mystery"]⟩

/-! ## C8: batch orchestration is fail-fast -/

/-- Running the catalogue: successful steps accumulate in order; the
first failing step aborts with the successes recorded so far. -/
theorem runSteps_append (pre : List (String × List ℚ)) (n : String)
    (e : PyError) (post : List (String × Except PyError (List ℚ)))
    (acc : List (String × List ℚ)) :
    runSteps (pre.map (fun p => (p.1, Except.ok p.2)) ++
        (n, Except.error e) :: post) acc = (acc ++ pre, some e) := by
  induction pre generalizing acc with
  | nil => simp [runSteps]
  | cons p pre ih =>
      obtain ⟨nm, f⟩ := p
      have hstep : runSteps
          (((nm, f) :: pre).map (fun p => (p.1, Except.ok p.2)) ++
            (n, Except.error e) :: post) acc =
          runSteps (pre.map (fun p => (p.1, Except.ok p.2)) ++
            (n, Except.error e) :: post) (acc ++ [(nm, f)]) := rfl
      rw [hstep, ih]
      simp

/-- Counterexample to claim C8 as stated: with a catalogue in which
`Exponential Smoothing` fails after `Linear Regression` succeeded,
`run_all_models` stops at the failure: `Random Forest` never runs and
records no forecast, so one model's failure does block the others. -/
theorem run_all_models_cex :
    runAllModels [("Linear Regression", Except.ok [1]),
        ("Exponential Smoothing", Except.error PyError.keyError),
        ("Random Forest", Except.ok [2])] =
      ([("Linear Regression", [1])], some PyError.keyError) ∧
    lookupForecast (runAllModels [("Linear Regression", Except.ok [1]),
        ("Exponential Smoothing", Except.error PyError.keyError),
        ("Random Forest", Except.ok [2])]).1 "Random Forest" = none := by
  constructor
  · rfl
  · rfl

/-- Claim C8 (amended): batch orchestration over the catalogue is
fail-fast: `run_all_models` has no per-model error handling, so when the
models before the failing one succeed, the run aborts at the first
failure with exactly the earlier models' forecasts recorded — the models
after the failure never run. -/
theorem run_all_models_fail_fast (pre : List (String × List ℚ))
    (n : String) (e : PyError)
    (post : List (String × Except PyError (List ℚ))) :
    runAllModels (pre.map (fun p => (p.1, Except.ok p.2)) ++
        (n, Except.error e) :: post) = (pre, some e) := by
  rw [runAllModels, runSteps_append]
  simp

/-! ## C10: empty state, forecasts table versus metrics summary -/

/-- Claim C10: if no forecasting model has been run yet, requesting the
combined all-forecasts table raises an exception (`IndexError` from
indexing the empty key list), while the metrics summary in the analogous
empty state returns an empty result rather than an error. -/
theorem empty_forecasts_contrast :
    getAllForecasts [] = Except.error PyError.indexError ∧
    getMetricsSummary [] = Except.ok [] :=
  ⟨rfl, rfl⟩

/-! ## C3: percentile bands are monotonic -/

/-- Closed form of `interpAt` with the `let`s expanded. -/
theorem interpAt_eq (s : List ℚ) (h : ℚ) :
    interpAt s h =
      s.getD (min (Int.toNat ⌊h⌋) (s.length - 1)) 0 +
        (h - ((⌊h⌋ : ℤ) : ℚ)) *
          (s.getD (min (min (Int.toNat ⌊h⌋) (s.length - 1) + 1)
              (s.length - 1)) 0 -
            s.getD (min (Int.toNat ⌊h⌋) (s.length - 1)) 0) := rfl

/-- In a sorted list, entries are nondecreasing in the index. -/
theorem getD_mono_of_sorted (s : List ℚ) (hs : List.Sorted (· ≤ ·) s)
    (a b : ℕ) (hab : a ≤ b) (hb : b < s.length) :
    s.getD a 0 ≤ s.getD b 0 := by
  have ha : a < s.length := lt_of_le_of_lt hab hb
  rw [List.getD_eq_getElem _ _ ha, List.getD_eq_getElem _ _ hb]
  rcases Nat.eq_or_lt_of_le hab with rfl | hlt
  · exact le_refl _
  · exact List.pairwise_iff_getElem.mp hs a b ha hb hlt

/-- Interpolation does not fall below the value at the lower index. -/
theorem interpAt_ge_lower (s : List ℚ) (hs : List.Sorted (· ≤ ·) s)
    (hne : s ≠ []) (h : ℚ) :
    s.getD (min (Int.toNat ⌊h⌋) (s.length - 1)) 0 ≤ interpAt s h := by
  have hn : 0 < s.length := List.length_pos.mpr hne
  have hij : min (Int.toNat ⌊h⌋) (s.length - 1) ≤
      min (min (Int.toNat ⌊h⌋) (s.length - 1) + 1) (s.length - 1) := by
    omega
  have hjn : min (min (Int.toNat ⌊h⌋) (s.length - 1) + 1) (s.length - 1) <
      s.length := by omega
  have hd := getD_mono_of_sorted s hs _ _ hij hjn
  have hfrac : (0 : ℚ) ≤ h - ((⌊h⌋ : ℤ) : ℚ) := by
    have := Int.floor_le h
    linarith
  rw [interpAt_eq]
  nlinarith [mul_nonneg hfrac (sub_nonneg.mpr hd)]

/-- Interpolation does not exceed the value at the upper index. -/
theorem interpAt_le_upper (s : List ℚ) (hs : List.Sorted (· ≤ ·) s)
    (hne : s ≠ []) (h : ℚ) :
    interpAt s h ≤
      s.getD (min (min (Int.toNat ⌊h⌋) (s.length - 1) + 1)
        (s.length - 1)) 0 := by
  have hn : 0 < s.length := List.length_pos.mpr hne
  have hij : min (Int.toNat ⌊h⌋) (s.length - 1) ≤
      min (min (Int.toNat ⌊h⌋) (s.length - 1) + 1) (s.length - 1) := by
    omega
  have hjn : min (min (Int.toNat ⌊h⌋) (s.length - 1) + 1) (s.length - 1) <
      s.length := by omega
  have hd := getD_mono_of_sorted s hs _ _ hij hjn
  have hfrac : h - ((⌊h⌋ : ℤ) : ℚ) ≤ 1 := by
    have := Int.lt_floor_add_one h
    push_cast at this ⊢
    linarith
  rw [interpAt_eq]
  nlinarith [mul_le_mul_of_nonneg_right hfrac (sub_nonneg.mpr hd)]

/-- Linear-interpolation lookup into a sorted list is monotone in the
virtual index, for nonnegative indices. -/
theorem interpAt_mono (s : List ℚ) (hs : List.Sorted (· ≤ ·) s)
    (h1 h2 : ℚ) (h0 : 0 ≤ h1) (h12 : h1 ≤ h2) :
    interpAt s h1 ≤ interpAt s h2 := by
  by_cases hne : s = []
  · subst hne
    simp [interpAt]
  · have hn : 0 < s.length := List.length_pos.mpr hne
    have hf12 : ⌊h1⌋ ≤ ⌊h2⌋ := Int.floor_le_floor h12
    have hf0 : (0 : ℤ) ≤ ⌊h1⌋ := Int.floor_nonneg.mpr h0
    rcases eq_or_lt_of_le hf12 with heq | hlt
    · rw [interpAt_eq, interpAt_eq, ← heq]
      have hij : min (Int.toNat ⌊h1⌋) (s.length - 1) ≤
          min (min (Int.toNat ⌊h1⌋) (s.length - 1) + 1) (s.length - 1) := by
        omega
      have hjn : min (min (Int.toNat ⌊h1⌋) (s.length - 1) + 1)
          (s.length - 1) < s.length := by omega
      have hd := getD_mono_of_sorted s hs _ _ hij hjn
      have := mul_le_mul_of_nonneg_right
        (sub_le_sub_right h12 ((⌊h1⌋ : ℤ) : ℚ)) (sub_nonneg.mpr hd)
      linarith
    · calc interpAt s h1
          ≤ s.getD (min (min (Int.toNat ⌊h1⌋) (s.length - 1) + 1)
              (s.length - 1)) 0 := interpAt_le_upper s hs hne h1
        _ ≤ s.getD (min (Int.toNat ⌊h2⌋) (s.length - 1)) 0 := by
            apply getD_mono_of_sorted s hs
            · omega
            · omega
        _ ≤ interpAt s h2 := interpAt_ge_lower s hs hne h2

/-- `np.percentile` with linear interpolation is monotone in the
percentile rank on any nonempty sample. -/
theorem percentile_mono (xs : List ℚ) (hne : xs ≠ []) (q1 q2 : ℚ)
    (h0 : 0 ≤ q1) (h12 : q1 ≤ q2) :
    percentile q1 xs ≤ percentile q2 xs := by
  have hs : List.Sorted (· ≤ ·) (List.insertionSort (· ≤ ·) xs) :=
    List.sorted_insertionSort (· ≤ ·) xs
  have hlpos : 0 < xs.length := List.length_pos.mpr hne
  have hc : (1 : ℚ) ≤ ((List.insertionSort (· ≤ ·) xs).length : ℚ) := by
    rw [List.length_insertionSort]
    exact_mod_cast hlpos
  rw [percentile, percentile]
  apply interpAt_mono _ hs
  · have := mul_nonneg h0 (by linarith :
      (0 : ℚ) ≤ ((List.insertionSort (· ≤ ·) xs).length : ℚ) - 1)
    positivity
  · have := mul_le_mul_of_nonneg_right h12 (by linarith :
      (0 : ℚ) ≤ ((List.insertionSort (· ≤ ·) xs).length : ℚ) - 1)
    linarith

/-- Claim C3: for every valid input series (`n ≥ 2`), every horizon, every
simulation count `S ≥ 1` and every outcome of the random draws, the Monte
Carlo percentile bands are monotonic at each future year:
`p10 ≤ p25 ≤ median ≤ p75 ≤ p90`, each band being the
linear-interpolation percentile of the `S` trial outcomes for that
year. -/
theorem mc_bands_monotone (vals : List ℚ) (draws : ℕ → ℕ → ℚ)
    (S H j : ℕ) (hn : 2 ≤ vals.length) (hS : 1 ≤ S) (hj : j < H) :
    (monteCarloSimulation vals draws S H).p10.getD j 0 ≤
        (monteCarloSimulation vals draws S H).p25.getD j 0 ∧
    (monteCarloSimulation vals draws S H).p25.getD j 0 ≤
        (monteCarloSimulation vals draws S H).median.getD j 0 ∧
    (monteCarloSimulation vals draws S H).median.getD j 0 ≤
        (monteCarloSimulation vals draws S H).p75.getD j 0 ∧
    (monteCarloSimulation vals draws S H).p75.getD j 0 ≤
        (monteCarloSimulation vals draws S H).p90.getD j 0 := by
  have hlen : (mcColumn (mcSimulations (vals.getLastD 0) draws S H) j).length
      = S := by
    simp [mcColumn, mcSimulations]
  have hcol : mcColumn (mcSimulations (vals.getLastD 0) draws S H) j ≠ [] := by
    intro hc
    rw [hc] at hlen
    simp at hlen
    omega
  have e10 : (monteCarloSimulation vals draws S H).p10 =
      (List.range H).map (fun j => percentile 10
        (mcColumn (mcSimulations (vals.getLastD 0) draws S H) j)) := rfl
  have e25 : (monteCarloSimulation vals draws S H).p25 =
      (List.range H).map (fun j => percentile 25
        (mcColumn (mcSimulations (vals.getLastD 0) draws S H) j)) := rfl
  have e50 : (monteCarloSimulation vals draws S H).median =
      (List.range H).map (fun j => percentile 50
        (mcColumn (mcSimulations (vals.getLastD 0) draws S H) j)) := rfl
  have e75 : (monteCarloSimulation vals draws S H).p75 =
      (List.range H).map (fun j => percentile 75
        (mcColumn (mcSimulations (vals.getLastD 0) draws S H) j)) := rfl
  have e90 : (monteCarloSimulation vals draws S H).p90 =
      (List.range H).map (fun j => percentile 90
        (mcColumn (mcSimulations (vals.getLastD 0) draws S H) j)) := rfl
  refine ⟨?_, ?_, ?_, ?_⟩
  · rw [e10, e25, getD_map_range _ _ _ _ hj, getD_map_range _ _ _ _ hj]
    exact percentile_mono _ hcol 10 25 (by norm_num) (by norm_num)
  · rw [e25, e50, getD_map_range _ _ _ _ hj, getD_map_range _ _ _ _ hj]
    exact percentile_mono _ hcol 25 50 (by norm_num) (by norm_num)
  · rw [e50, e75, getD_map_range _ _ _ _ hj, getD_map_range _ _ _ _ hj]
    exact percentile_mono _ hcol 50 75 (by norm_num) (by norm_num)
  · rw [e75, e90, getD_map_range _ _ _ _ hj, getD_map_range _ _ _ _ hj]
    exact percentile_mono _ hcol 75 90 (by norm_num) (by norm_num)

/-- Witness for C3: the series `[1, 2]`, one trial, horizon 1, constant
draws. -/
theorem mc_bands_monotone_witness :
    (monteCarloSimulation [1, 2] (fun _ _ => 1/10) 1 1).p10.getD 0 0 ≤
        (monteCarloSimulation [1, 2] (fun _ _ => 1/10) 1 1).p25.getD 0 0 ∧
    (monteCarloSimulation [1, 2] (fun _ _ => 1/10) 1 1).p25.getD 0 0 ≤
        (monteCarloSimulation [1, 2] (fun _ _ => 1/10) 1 1).median.getD 0 0 ∧
    (monteCarloSimulation [1, 2] (fun _ _ => 1/10) 1 1).median.getD 0 0 ≤
        (monteCarloSimulation [1, 2] (fun _ _ => 1/10) 1 1).p75.getD 0 0 ∧
    (monteCarloSimulation [1, 2] (fun _ _ => 1/10) 1 1).p75.getD 0 0 ≤
        (monteCarloSimulation [1, 2] (fun _ _ => 1/10) 1 1).p90.getD 0 0 :=
  mc_bands_monotone [1, 2] (fun _ _ => 1/10) 1 1 0 (by norm_num)
    (le_refl 1) (by norm_num)

/-! ## C4: fixed draws determine the Monte Carlo output -/

/-- A simulation row depends only on the draws for the periods it
consumes. -/
theorem mcRow_congr (g g' : ℕ → ℚ) (c : ℚ) (year k : ℕ)
    (h : ∀ y, year ≤ y → y < year + k → g y = g' y) :
    mcRow g c year k = mcRow g' c year k := by
  induction k generalizing c year with
  | zero => rfl
  | succ k ih =>
      have h0 : g year = g' year := h year (le_refl _) (by omega)
      simp only [mcRow, h0]
      exact congrArg _ (ih _ _ (fun y hy1 hy2 => h y (by omega) (by omega)))

/-- Claim C4: the Monte Carlo simulator is a deterministic function of
its inputs and the random draws it consumes: whenever two draw streams
agree on every `(trial, period)` pair the simulation reads (`trial < S`,
`period < H`), the two runs produce identical percentile bands
(p10, p25, median, p75, p90) and identical mean sequences.  A fixed seed
of the random source fixes the draw stream, so identical inputs with the
same seed produce identical results. -/
theorem mc_fixed_draws_deterministic (vals : List ℚ) (d1 d2 : ℕ → ℕ → ℚ)
    (S H : ℕ) (hagree : ∀ s, s < S → ∀ y, y < H → d1 s y = d2 s y) :
    monteCarloSimulation vals d1 S H = monteCarloSimulation vals d2 S H := by
  have hsims : mcSimulations (vals.getLastD 0) d1 S H =
      mcSimulations (vals.getLastD 0) d2 S H := by
    rw [mcSimulations, mcSimulations]
    apply List.map_congr_left
    intro sim hsim
    have hS : sim < S := List.mem_range.mp hsim
    exact mcRow_congr _ _ _ _ _
      (fun y hy1 hy2 => hagree sim hS y (by omega))
  simp only [monteCarloSimulation]
  rw [hsims]

/-- Witness for C4: one trial, horizon 1; the two draw streams agree on
the single consumed pair `(0, 0)` and differ everywhere else. -/
theorem mc_fixed_draws_deterministic_witness :
    (∀ s, s < 1 → ∀ y, y < 1 →
      (fun _ _ => (1 : ℚ)/10) s y =
        (fun s y => if s = 0 ∧ y = 0 then (1 : ℚ)/10 else 5) s y) ∧
    monteCarloSimulation [1, 2] (fun _ _ => (1 : ℚ)/10) 1 1 =
      monteCarloSimulation [1, 2]
        (fun s y => if s = 0 ∧ y = 0 then (1 : ℚ)/10 else 5) 1 1 := by
  have hagree : ∀ s, s < 1 → ∀ y, y < 1 →
      (fun _ _ => (1 : ℚ)/10) s y =
        (fun s y => if s = 0 ∧ y = 0 then (1 : ℚ)/10 else 5) s y := by
    intro s hs y hy
    have hs0 : s = 0 := by omega
    have hy0 : y = 0 := by omega
    subst hs0
    subst hy0
    simp
  exact ⟨hagree,
    mc_fixed_draws_deterministic [1, 2] _ _ 1 1 hagree⟩
